import Mathlib

/-!
Shallow embedding of `CryptocurrencyEngine.Run` and `CryptocurrencyEngine.Result`
from `go/engine/cryptocurrency.go`.

The engine's external collaborators (address parsing, user loading, the
downgrade-lease service, the keyring, signing primitives, and the API post)
live outside this file's source; `Run` is therefore embedded as a function of
an oracle environment `Env` that fixes the outcome of each external call, and
the theorems quantify over all environments.  The embedding records, besides
the returned error, which side effects occurred (lease request, V1/V2 signing
calls with their arguments, the HTTP post with its argument map, guard
acquisition and release), so that ordering and "no submission happened" claims
are statable.
-/

namespace Crypto

/-- A cryptocurrency type as produced by `libkb.CryptocurrencyParseAndCheck`:
it determines a family (`ToCryptocurrencyFamily`) and a display string
(`String()`). -/
structure CryptocurrencyType where
  name : String
  family : String
deriving DecidableEq, Repr

def CryptocurrencyType.toCryptocurrencyFamily (t : CryptocurrencyType) : String :=
  t.family

def CryptocurrencyType.toStr (t : CryptocurrencyType) : String :=
  t.name

/-- `keybase1.RegisterAddressArg`: the engine's input. -/
structure RegisterAddressArg where
  address : String
  wantedFamily : String
  force : Bool
  sigVersion : Int
deriving DecidableEq, Repr

/-- `keybase1.RegisterAddressRes`: the engine's result record. -/
structure RegisterAddressRes where
  family : String
  type : String
deriving DecidableEq, Repr

/-- The zero value of `RegisterAddressRes`, as a freshly constructed engine holds. -/
def RegisterAddressRes.zero : RegisterAddressRes :=
  { family := "", type := "" }

/-- An active cryptocurrency chain link; the engine only reads its sig ID. -/
structure Link where
  sigID : String
deriving DecidableEq, Repr

/-- A downgrade lease as returned by `libkb.RequestDowngradeLeaseBySigIDs`. -/
structure Lease where
  leaseID : String
deriving DecidableEq, Repr

/-- A merkle root snapshot accompanying a lease (opaque to this engine). -/
structure MerkleRoot where
  seqno : Nat
deriving DecidableEq, Repr

/-- The loaded user (`libkb.LoadMe`): active cryptocurrency link per family,
and the sigchain tip (`GetSigChainLastKnownSeqno`, `GetSigChainLastKnownID`). -/
structure Me where
  activeCryptocurrency : String → Option Link
  lastKnownSeqno : Nat
  lastKnownID : String

/-- A device signing key; the engine only reads its KID. -/
structure SigKey where
  kid : String
deriving DecidableEq, Repr

/-- An opaque claim (`me.CryptocurrencySig` result, a JSON document). -/
structure Claim where
  tag : Nat
deriving DecidableEq, Repr

/-- The errors `Run` can return: the two errors this file constructs itself
(`libkb.InvalidAddressError`, `libkb.ExistsError`), the literal
`errors.New("Invalid Signature Version")`, and errors passed through
unchanged from external collaborators. -/
inductive GoError where
  | invalidAddressError (msg : String)
  | existsError (msg : String)
  | invalidSigVersion
  | external (msg : String)
deriving DecidableEq, Repr

/-- Sigchain link types (only `LinkTypeCryptocurrency` is used here). -/
inductive LinkType where
  | cryptocurrency
  | track
  | revoke
deriving DecidableEq, Repr

/-- Sequence types (only `SeqType_PUBLIC` is used here). -/
inductive SeqType where
  | public
  | semiprivate
deriving DecidableEq, Repr

/-- The arguments the engine passes to `libkb.MakeSigchainV2OuterSig`. -/
structure OuterSigArgs where
  linkType : LinkType
  seqno : Nat
  innerLinkJSON : List Nat
  prevLinkID : String
  hasRevokes : Bool
  seqType : SeqType
  ignoreIfUnsupported : Bool
deriving DecidableEq, Repr

/-- The argument map of the `sig/post` API call.  The fields `sig`,
`signing_kid`, `is_remote_proof` and `type` are unconditionally present
(non-optional); `downgrade_lease_id` and `sig_inner` are set conditionally. -/
structure PostArgs where
  sig : String
  signing_kid : String
  is_remote_proof : Bool
  type : String
  downgrade_lease_id : Option String
  sig_inner : Option (List Nat)
deriving DecidableEq, Repr

/-- Oracle environment: the outcome of each external call `Run` makes, in
source order.  Error outcomes carry the collaborator's message; `Run` returns
them as `GoError.external` (the parse error alone is rewrapped by the source
into `InvalidAddressError`). -/
structure Env where
  parseAndCheck : Except String CryptocurrencyType
  loadMe : Except String Me
  requestDowngradeLease : Except String (Lease × MerkleRoot)
  getSecretKeyWithPrompt : Except String SigKey
  checkSecretKey : Option String
  cryptocurrencySig : Except String Claim
  marshal : Except String (List Nat)
  signToString : Except String String
  makeSigchainV2OuterSig : Except String String
  post : Option String

/-- Everything observable about one execution of `Run`: the returned error
(`none` = success), which external effects occurred and with what arguments,
the guard state (`guardSet` mirrors `LocalSigchainGuard().Set`, `guardCleared`
the deferred `Clear`), and the engine's `res` field after the call. -/
structure RunResult where
  err : Option GoError
  leaseRequested : Option (List String)
  v1SignPayload : Option (List Nat)
  outerSigCall : Option OuterSigArgs
  posted : Option PostArgs
  guardSet : Bool
  guardCleared : Bool
  res : RegisterAddressRes
deriving Repr

/-- An exit of `Run` before any signing call and before the post.  The guard
flags are both true on every exit: `Set` runs first and `Clear` is deferred. -/
def earlyExit (e : GoError) (leaseReq : Option (List String)) : RunResult :=
  { err := some e
    leaseRequested := leaseReq
    v1SignPayload := none
    outerSigCall := none
    posted := none
    guardSet := true
    guardCleared := true
    res := RegisterAddressRes.zero }

/-- The tail of `Run` from the `sig/post` call: builds the HTTP argument map
(`downgrade_lease_id` iff a lease is held, `sig_inner` iff the effective
signature version is 2), posts, and on success fills in `res`. -/
def runPost (env : Env) (family : String) (typStr : String) (sigKey : SigKey)
    (lease : Option Lease) (leaseReq : Option (List String))
    (v1p : Option (List Nat)) (outer : Option OuterSigArgs)
    (sig : String) (sigVersion : Int) (sigInner : List Nat) : RunResult :=
  let args : PostArgs :=
    { sig := sig
      signing_kid := sigKey.kid
      is_remote_proof := false
      type := "cryptocurrency"
      downgrade_lease_id := lease.map (fun l => l.leaseID)
      sig_inner := if sigVersion == 2 then some sigInner else none }
  match env.post with
  | some msg =>
    { err := some (GoError.external msg)
      leaseRequested := leaseReq
      v1SignPayload := v1p
      outerSigCall := outer
      posted := some args
      guardSet := true
      guardCleared := true
      res := RegisterAddressRes.zero }
  | none =>
    { err := none
      leaseRequested := leaseReq
      v1SignPayload := v1p
      outerSigCall := outer
      posted := some args
      guardSet := true
      guardCleared := true
      res := { family := family, type := typStr } }

/-- Signature-version defaulting: `sigVersion := libkb.SigVersion(e.arg.SigVersion);
if sigVersion == 0 { sigVersion = libkb.KeybaseSignatureV2 }` where
`KeybaseSignatureV1 = 1` and `KeybaseSignatureV2 = 2`. -/
def effSigVersion (v : Int) : Int :=
  if v == 0 then 2 else v

/-- The tail of `Run` after the downgrade-lease step: secret key retrieval and
check, signature-version defaulting, claim building and marshalling, the
version switch producing the outer signature, then the post. -/
def runAfterLease (env : Env) (arg : RegisterAddressArg)
    (family : String) (typStr : String) (sigIDToRevoke : String)
    (lease : Option Lease) (leaseReq : Option (List String)) (me : Me) : RunResult :=
  match env.getSecretKeyWithPrompt with
  | .error msg => earlyExit (GoError.external msg) leaseReq
  | .ok sigKey =>
    match env.checkSecretKey with
    | some msg => earlyExit (GoError.external msg) leaseReq
    | none =>
      let sigVersion : Int := effSigVersion arg.sigVersion
      match env.cryptocurrencySig with
      | .error msg => earlyExit (GoError.external msg) leaseReq
      | .ok _claim =>
        match env.marshal with
        | .error msg => earlyExit (GoError.external msg) leaseReq
        | .ok sigInner =>
          if sigVersion == 1 then
            match env.signToString with
            | .error msg =>
              { err := some (GoError.external msg)
                leaseRequested := leaseReq
                v1SignPayload := some sigInner
                outerSigCall := none
                posted := none
                guardSet := true
                guardCleared := true
                res := RegisterAddressRes.zero }
            | .ok sig =>
              runPost env family typStr sigKey lease leaseReq
                (some sigInner) none sig sigVersion sigInner
          else if sigVersion == 2 then
            let call : OuterSigArgs :=
              { linkType := LinkType.cryptocurrency
                seqno := me.lastKnownSeqno + 1
                innerLinkJSON := sigInner
                prevLinkID := me.lastKnownID
                hasRevokes := decide (0 < sigIDToRevoke.length)
                seqType := SeqType.public
                ignoreIfUnsupported := false }
            match env.makeSigchainV2OuterSig with
            | .error msg =>
              { err := some (GoError.external msg)
                leaseRequested := leaseReq
                v1SignPayload := none
                outerSigCall := some call
                posted := none
                guardSet := true
                guardCleared := true
                res := RegisterAddressRes.zero }
            | .ok sig =>
              runPost env family typStr sigKey lease leaseReq
                none (some call) sig sigVersion sigInner
          else
            earlyExit GoError.invalidSigVersion leaseReq

/-- Shallow embedding of `CryptocurrencyEngine.Run`.  Mirrors the source's
control flow: guard set (deferred clear), address parse, wanted-family check,
`LoadMe`, active-claim / force check, downgrade lease, key retrieval and
check, version defaulting, claim build and marshal, version switch, post. -/
def run (env : Env) (arg : RegisterAddressArg) : RunResult :=
  match env.parseAndCheck with
  | .error msg => earlyExit (GoError.invalidAddressError msg) none
  | .ok typ =>
    let family := typ.toCryptocurrencyFamily
    if arg.wantedFamily.length > 0 && arg.wantedFamily != family then
      earlyExit
        (GoError.invalidAddressError
          ("wanted coin type \"" ++ arg.wantedFamily ++ "\", but got \"" ++ family ++ "\""))
        none
    else
      match env.loadMe with
      | .error msg => earlyExit (GoError.external msg) none
      | .ok me =>
        let cryptocurrencyLink := me.activeCryptocurrency typ.toCryptocurrencyFamily
        if cryptocurrencyLink.isSome && !arg.force then
          earlyExit (GoError.existsError family) none
        else
          match cryptocurrencyLink with
          | some link =>
            match env.requestDowngradeLease with
            | .error msg => earlyExit (GoError.external msg) (some [link.sigID])
            | .ok (lease, _merkleRoot) =>
              runAfterLease env arg family typ.toStr link.sigID
                (some lease) (some [link.sigID]) me
          | none =>
            runAfterLease env arg family typ.toStr "" none none me

/-- Shallow embedding of `CryptocurrencyEngine.Result`: returns the engine's
`res` field after `Run`. -/
def Result (r : RunResult) : RegisterAddressRes :=
  r.res

section StageLemmas

variable (env : Env) (arg : RegisterAddressArg)

@[simp]
lemma runPost_leaseRequested (fam ts : String) (k : SigKey) (lease : Option Lease)
    (lr : Option (List String)) (v1p : Option (List Nat)) (outer : Option OuterSigArgs)
    (sig : String) (sv : Int) (si : List Nat) :
    (runPost env fam ts k lease lr v1p outer sig sv si).leaseRequested = lr := by
  unfold runPost
  cases env.post <;> rfl

@[simp]
lemma runPost_guardSet (fam ts : String) (k : SigKey) (lease : Option Lease)
    (lr : Option (List String)) (v1p : Option (List Nat)) (outer : Option OuterSigArgs)
    (sig : String) (sv : Int) (si : List Nat) :
    (runPost env fam ts k lease lr v1p outer sig sv si).guardSet = true := by
  unfold runPost
  cases env.post <;> rfl

@[simp]
lemma runPost_guardCleared (fam ts : String) (k : SigKey) (lease : Option Lease)
    (lr : Option (List String)) (v1p : Option (List Nat)) (outer : Option OuterSigArgs)
    (sig : String) (sv : Int) (si : List Nat) :
    (runPost env fam ts k lease lr v1p outer sig sv si).guardCleared = true := by
  unfold runPost
  cases env.post <;> rfl

@[simp]
lemma runPost_v1SignPayload (fam ts : String) (k : SigKey) (lease : Option Lease)
    (lr : Option (List String)) (v1p : Option (List Nat)) (outer : Option OuterSigArgs)
    (sig : String) (sv : Int) (si : List Nat) :
    (runPost env fam ts k lease lr v1p outer sig sv si).v1SignPayload = v1p := by
  unfold runPost
  cases env.post <;> rfl

@[simp]
lemma runPost_outerSigCall (fam ts : String) (k : SigKey) (lease : Option Lease)
    (lr : Option (List String)) (v1p : Option (List Nat)) (outer : Option OuterSigArgs)
    (sig : String) (sv : Int) (si : List Nat) :
    (runPost env fam ts k lease lr v1p outer sig sv si).outerSigCall = outer := by
  unfold runPost
  cases env.post <;> rfl

@[simp]
lemma runPost_posted (fam ts : String) (k : SigKey) (lease : Option Lease)
    (lr : Option (List String)) (v1p : Option (List Nat)) (outer : Option OuterSigArgs)
    (sig : String) (sv : Int) (si : List Nat) :
    (runPost env fam ts k lease lr v1p outer sig sv si).posted =
      some { sig := sig
             signing_kid := k.kid
             is_remote_proof := false
             type := "cryptocurrency"
             downgrade_lease_id := Option.map Lease.leaseID lease
             sig_inner := if sv == 2 then some si else none } := by
  unfold runPost
  cases env.post <;> rfl

@[simp]
lemma runPost_err (fam ts : String) (k : SigKey) (lease : Option Lease)
    (lr : Option (List String)) (v1p : Option (List Nat)) (outer : Option OuterSigArgs)
    (sig : String) (sv : Int) (si : List Nat) :
    (runPost env fam ts k lease lr v1p outer sig sv si).err =
      Option.map GoError.external env.post := by
  unfold runPost
  cases env.post <;> rfl

@[simp]
lemma runPost_res (fam ts : String) (k : SigKey) (lease : Option Lease)
    (lr : Option (List String)) (v1p : Option (List Nat)) (outer : Option OuterSigArgs)
    (sig : String) (sv : Int) (si : List Nat) :
    (runPost env fam ts k lease lr v1p outer sig sv si).res =
      if env.post.isSome then RegisterAddressRes.zero
      else { family := fam, type := ts } := by
  unfold runPost
  cases env.post <;> rfl

lemma runAfterLease_leaseRequested (fam ts s : String) (lease : Option Lease)
    (lr : Option (List String)) (me : Me) :
    (runAfterLease env arg fam ts s lease lr me).leaseRequested = lr := by
  unfold runAfterLease
  cases env.getSecretKeyWithPrompt with
  | error m => rfl
  | ok k =>
    cases env.checkSecretKey with
    | some m => rfl
    | none =>
      cases env.cryptocurrencySig with
      | error m => rfl
      | ok c =>
        cases env.marshal with
        | error m => rfl
        | ok si =>
          by_cases h1 : effSigVersion arg.sigVersion == 1
          · simp only [h1, if_true]
            cases env.signToString with
            | error m => rfl
            | ok sig => simp
          · simp only [h1, Bool.false_eq_true, if_false]
            by_cases h2 : effSigVersion arg.sigVersion == 2
            · simp only [h2, if_true]
              cases env.makeSigchainV2OuterSig with
              | error m => rfl
              | ok sig => simp
            · simp only [h2, Bool.false_eq_true, if_false]
              rfl

/-- `runAfterLease` only reads the argument record through the effective
signature version. -/
lemma runAfterLease_congr (a b : RegisterAddressArg)
    (h : effSigVersion a.sigVersion = effSigVersion b.sigVersion)
    (fam ts s : String) (lease : Option Lease) (lr : Option (List String)) (me : Me) :
    runAfterLease env a fam ts s lease lr me = runAfterLease env b fam ts s lease lr me := by
  unfold runAfterLease
  rw [h]

/-- Characterization of the post-lease tail of `Run`: guard flags, the result
record on errors, the shape of the posted argument map, the arguments of the
V2 outer-signature call, and the behaviour of the version switch. -/
lemma runAfterLease_spec (fam ts s : String) (lease : Option Lease)
    (lr : Option (List String)) (me : Me) (r : RunResult)
    (hr : r = runAfterLease env arg fam ts s lease lr me) :
    r.guardSet = true ∧ r.guardCleared = true ∧
    (r.err.isSome = true → r.res = RegisterAddressRes.zero) ∧
    (∀ p, r.posted = some p → p.is_remote_proof = false ∧ p.type = "cryptocurrency" ∧
      p.downgrade_lease_id = Option.map Lease.leaseID lease ∧
      p.sig_inner.isSome = (effSigVersion arg.sigVersion == 2)) ∧
    (∀ c, r.outerSigCall = some c → c.linkType = LinkType.cryptocurrency ∧
      c.seqno = me.lastKnownSeqno + 1 ∧ c.prevLinkID = me.lastKnownID ∧
      c.hasRevokes = decide (0 < s.length) ∧ c.seqType = SeqType.public ∧
      c.ignoreIfUnsupported = false ∧ env.marshal = Except.ok c.innerLinkJSON) ∧
    (effSigVersion arg.sigVersion ≠ 1 → effSigVersion arg.sigVersion ≠ 2 →
      r.err.isSome = true ∧ r.posted = none ∧ r.v1SignPayload = none ∧
      r.outerSigCall = none) ∧
    (effSigVersion arg.sigVersion ≠ 1 → effSigVersion arg.sigVersion ≠ 2 →
      ∀ k, env.getSecretKeyWithPrompt = Except.ok k → env.checkSecretKey = none →
      ∀ c, env.cryptocurrencySig = Except.ok c → ∀ si, env.marshal = Except.ok si →
      r.err = some GoError.invalidSigVersion) ∧
    (effSigVersion arg.sigVersion = 2 → r.err ≠ some GoError.invalidSigVersion) := by
  subst hr
  unfold runAfterLease
  cases hk : env.getSecretKeyWithPrompt with
  | error m => simp [earlyExit, hk]
  | ok k =>
    cases hc : env.checkSecretKey with
    | some m => simp [earlyExit, hc]
    | none =>
      cases hs : env.cryptocurrencySig with
      | error m => simp [earlyExit, hs]
      | ok c0 =>
        cases hm : env.marshal with
        | error m => simp [earlyExit, hm]
        | ok si0 =>
          by_cases h1 : effSigVersion arg.sigVersion == 1
          · simp only [h1, if_true]
            have h1' : effSigVersion arg.sigVersion = 1 := by
              exact beq_iff_eq.mp h1
            cases hss : env.signToString with
            | error m => simp [h1']
            | ok sg => cases hp : env.post <;> simp [h1', hm, hp]
          · simp only [h1, Bool.false_eq_true, if_false]
            have h1' : effSigVersion arg.sigVersion ≠ 1 := by
              intro h
              exact absurd (beq_iff_eq.mpr h) (by simp [h1])
            by_cases h2 : effSigVersion arg.sigVersion == 2
            · simp only [h2, if_true]
              have h2' : effSigVersion arg.sigVersion = 2 := beq_iff_eq.mp h2
              cases ho : env.makeSigchainV2OuterSig with
              | error m => simp [h2', hm]
              | ok sg => cases hp : env.post <;> simp [h2', hm, hp]
            · simp only [h2, Bool.false_eq_true, if_false]
              have h2' : effSigVersion arg.sigVersion ≠ 2 := by
                intro h
                exact absurd (beq_iff_eq.mpr h) (by simp [h2])
              simp [earlyExit, h1', h2', hk, hc, hs, hm]

/-- The post-lease tail never produces `InvalidAddressError`: its failures are
collaborator errors or the invalid-version error. -/
lemma runAfterLease_no_invalidAddressError (fam ts s : String) (lease : Option Lease)
    (lr : Option (List String)) (me : Me) (m : String) :
    (runAfterLease env arg fam ts s lease lr me).err ≠
      some (GoError.invalidAddressError m) := by
  unfold runAfterLease
  cases hk : env.getSecretKeyWithPrompt with
  | error m2 => simp [earlyExit]
  | ok k =>
    cases hc : env.checkSecretKey with
    | some m2 => simp [earlyExit]
    | none =>
      cases hs : env.cryptocurrencySig with
      | error m2 => simp [earlyExit]
      | ok c0 =>
        cases hm : env.marshal with
        | error m2 => simp [earlyExit]
        | ok si0 =>
          by_cases h1 : effSigVersion arg.sigVersion == 1
          · simp only [h1, if_true]
            cases hss : env.signToString with
            | error m2 => simp
            | ok sg => cases hp : env.post <;> simp [hp]
          · simp only [h1, Bool.false_eq_true, if_false]
            by_cases h2 : effSigVersion arg.sigVersion == 2
            · simp only [h2, if_true]
              cases ho : env.makeSigchainV2OuterSig with
              | error m2 => simp
              | ok sg => cases hp : env.post <;> simp [hp]
            · simp only [h2, Bool.false_eq_true, if_false]
              simp [earlyExit]

end StageLemmas

/-! Concrete sample values used by the witness theorems. -/

/-- A sample parsed cryptocurrency type (family "bitcoin"). -/
def typBtc : CryptocurrencyType :=
  { name := "bitcoin", family := "bitcoin" }

/-- A sample user with no active cryptocurrency link in any family. -/
def meNone : Me :=
  { activeCryptocurrency := fun _ => none, lastKnownSeqno := 4, lastKnownID := "prevID" }

/-- A sample user with an active cryptocurrency link (sig ID "sigOld") in every
family, at sigchain tip (seqno 4, link "prevID"). -/
def meActive : Me :=
  { activeCryptocurrency := fun _ => some { sigID := "sigOld" }
    lastKnownSeqno := 4
    lastKnownID := "prevID" }

/-- A sample environment in which every external call succeeds and no active
claim exists. -/
def envBase : Env :=
  { parseAndCheck := Except.ok typBtc
    loadMe := Except.ok meNone
    requestDowngradeLease := Except.ok ({ leaseID := "lease1" }, { seqno := 7 })
    getSecretKeyWithPrompt := Except.ok { kid := "kid1" }
    checkSecretKey := none
    cryptocurrencySig := Except.ok { tag := 0 }
    marshal := Except.ok [1, 2, 3]
    signToString := Except.ok "sigV1"
    makeSigchainV2OuterSig := Except.ok "sigV2"
    post := none }

/-- Like `envBase` but the loaded user has an active claim in the family. -/
def envActive : Env :=
  { envBase with loadMe := Except.ok meActive }

/-- Like `envActive` but the lease service rejects the downgrade-lease request. -/
def envLeaseFail : Env :=
  { envActive with requestDowngradeLease := Except.error "lease unavailable" }

/-- Like `envBase` but the address fails to parse. -/
def envParseFail : Env :=
  { envBase with parseAndCheck := Except.error "bad address" }

/-- A sample argument record: no wanted-family hint, no force, version unset. -/
def argBase : RegisterAddressArg :=
  { address := "1abc", wantedFamily := "", force := false, sigVersion := 0 }

section RunLemmas

variable (env : Env) (arg : RegisterAddressArg)

/-- On a parse failure `Run` rewraps the parse error into `InvalidAddressError`
and exits with no side effects. -/
lemma run_parse_error (m : String) (hp : env.parseAndCheck = Except.error m) :
    (run env arg).err = some (GoError.invalidAddressError m) ∧
    (run env arg).leaseRequested = none ∧ (run env arg).v1SignPayload = none ∧
    (run env arg).outerSigCall = none ∧ (run env arg).posted = none := by
  simp [run, hp, earlyExit]

/-- On a wanted-family mismatch `Run` fails with `InvalidAddressError` and
exits with no side effects. -/
lemma run_mismatch (typ : CryptocurrencyType)
    (hp : env.parseAndCheck = Except.ok typ)
    (hw : (arg.wantedFamily.length > 0 &&
      arg.wantedFamily != typ.toCryptocurrencyFamily) = true) :
    (∃ m, (run env arg).err = some (GoError.invalidAddressError m)) ∧
    (run env arg).leaseRequested = none ∧ (run env arg).v1SignPayload = none ∧
    (run env arg).outerSigCall = none ∧ (run env arg).posted = none := by
  simp [run, hp, hw, earlyExit]

/-- With an active claim in the target family and no force flag, `Run` fails
with `ExistsError` naming the family, before the lease request, any signing
call and the post. -/
lemma run_exists_error (typ : CryptocurrencyType) (me : Me) (link : Link)
    (hp : env.parseAndCheck = Except.ok typ)
    (hw : (arg.wantedFamily.length > 0 &&
      arg.wantedFamily != typ.toCryptocurrencyFamily) = false)
    (hm : env.loadMe = Except.ok me)
    (ha : me.activeCryptocurrency typ.toCryptocurrencyFamily = some link)
    (hf : arg.force = false) :
    (run env arg).err = some (GoError.existsError typ.toCryptocurrencyFamily) ∧
    (run env arg).leaseRequested = none ∧ (run env arg).v1SignPayload = none ∧
    (run env arg).outerSigCall = none ∧ (run env arg).posted = none := by
  simp [run, hp, hw, hm, ha, hf, earlyExit]

/-- When the lease service rejects the downgrade-lease request, `Run` returns
the lease error unmodified, after exactly one lease request for the active
link's sig ID and with no post. -/
lemma run_lease_error (typ : CryptocurrencyType) (me : Me) (link : Link) (m : String)
    (hp : env.parseAndCheck = Except.ok typ)
    (hw : (arg.wantedFamily.length > 0 &&
      arg.wantedFamily != typ.toCryptocurrencyFamily) = false)
    (hm : env.loadMe = Except.ok me)
    (ha : me.activeCryptocurrency typ.toCryptocurrencyFamily = some link)
    (hf : arg.force = true)
    (hl : env.requestDowngradeLease = Except.error m) :
    (run env arg).err = some (GoError.external m) ∧
    (run env arg).leaseRequested = some [link.sigID] ∧
    (run env arg).v1SignPayload = none ∧ (run env arg).outerSigCall = none ∧
    (run env arg).posted = none := by
  simp [run, hp, hw, hm, ha, hf, hl, earlyExit]

/-- The guard flags are set and cleared on every path of `Run`. -/
lemma run_guard :
    (run env arg).guardSet = true ∧ (run env arg).guardCleared = true := by
  cases hp : env.parseAndCheck with
  | error m => simp [run, hp, earlyExit]
  | ok typ =>
    by_cases hw : (arg.wantedFamily.length > 0 &&
        arg.wantedFamily != typ.toCryptocurrencyFamily) = true
    · simp [run, hp, hw, earlyExit]
    · rw [Bool.not_eq_true] at hw
      cases hm : env.loadMe with
      | error m => simp [run, hp, hw, hm, earlyExit]
      | ok me =>
        cases ha : me.activeCryptocurrency typ.toCryptocurrencyFamily with
        | none =>
          have hrun : run env arg =
              runAfterLease env arg typ.toCryptocurrencyFamily typ.toStr
                "" none none me := by
            simp [run, hp, hw, hm, ha]
          rw [hrun]
          obtain ⟨g1, g2, -⟩ :=
            runAfterLease_spec env arg typ.toCryptocurrencyFamily typ.toStr
              "" none none me _ rfl
          exact ⟨g1, g2⟩
        | some link =>
          cases hf : arg.force with
          | false => simp [run, hp, hw, hm, ha, hf, earlyExit]
          | true =>
            cases hl : env.requestDowngradeLease with
            | error m => simp [run, hp, hw, hm, ha, hf, hl, earlyExit]
            | ok pr =>
              obtain ⟨l0, r0⟩ := pr
              have hrun : run env arg =
                  runAfterLease env arg typ.toCryptocurrencyFamily typ.toStr
                    link.sigID (some l0) (some [link.sigID]) me := by
                simp [run, hp, hw, hm, ha, hf, hl]
              rw [hrun]
              obtain ⟨g1, g2, -⟩ :=
                runAfterLease_spec env arg typ.toCryptocurrencyFamily typ.toStr
                  link.sigID (some l0) (some [link.sigID]) me _ rfl
              exact ⟨g1, g2⟩

/-- On every error path of `Run` the result record stays zero. -/
lemma run_res_zero (h : (run env arg).err.isSome = true) :
    (run env arg).res = RegisterAddressRes.zero := by
  revert h
  cases hp : env.parseAndCheck with
  | error m => simp [run, hp, earlyExit]
  | ok typ =>
    by_cases hw : (arg.wantedFamily.length > 0 &&
        arg.wantedFamily != typ.toCryptocurrencyFamily) = true
    · simp [run, hp, hw, earlyExit]
    · rw [Bool.not_eq_true] at hw
      cases hm : env.loadMe with
      | error m => simp [run, hp, hw, hm, earlyExit]
      | ok me =>
        cases ha : me.activeCryptocurrency typ.toCryptocurrencyFamily with
        | none =>
          have hrun : run env arg =
              runAfterLease env arg typ.toCryptocurrencyFamily typ.toStr
                "" none none me := by
            simp [run, hp, hw, hm, ha]
          rw [hrun]
          obtain ⟨-, -, g3, -⟩ :=
            runAfterLease_spec env arg typ.toCryptocurrencyFamily typ.toStr
              "" none none me _ rfl
          exact g3
        | some link =>
          cases hf : arg.force with
          | false => simp [run, hp, hw, hm, ha, hf, earlyExit]
          | true =>
            cases hl : env.requestDowngradeLease with
            | error m => simp [run, hp, hw, hm, ha, hf, hl, earlyExit]
            | ok pr =>
              obtain ⟨l0, r0⟩ := pr
              have hrun : run env arg =
                  runAfterLease env arg typ.toCryptocurrencyFamily typ.toStr
                    link.sigID (some l0) (some [link.sigID]) me := by
                simp [run, hp, hw, hm, ha, hf, hl]
              rw [hrun]
              obtain ⟨-, -, g3, -⟩ :=
                runAfterLease_spec env arg typ.toCryptocurrencyFamily typ.toStr
                  link.sigID (some l0) (some [link.sigID]) me _ rfl
              exact g3

/-- Shape of any posted argument map: the constant fields, the lease-id field
present exactly when a lease was requested (and, the post being reached,
obtained), and `sig_inner` present exactly when the effective version is 2. -/
lemma run_posted_shape (p : PostArgs) (hp' : (run env arg).posted = some p) :
    p.is_remote_proof = false ∧ p.type = "cryptocurrency" ∧
    p.downgrade_lease_id.isSome = (run env arg).leaseRequested.isSome ∧
    p.sig_inner.isSome = (effSigVersion arg.sigVersion == 2) := by
  revert hp'
  cases hp : env.parseAndCheck with
  | error m => simp [run, hp, earlyExit]
  | ok typ =>
    by_cases hw : (arg.wantedFamily.length > 0 &&
        arg.wantedFamily != typ.toCryptocurrencyFamily) = true
    · simp [run, hp, hw, earlyExit]
    · rw [Bool.not_eq_true] at hw
      cases hm : env.loadMe with
      | error m => simp [run, hp, hw, hm, earlyExit]
      | ok me =>
        cases ha : me.activeCryptocurrency typ.toCryptocurrencyFamily with
        | none =>
          have hrun : run env arg =
              runAfterLease env arg typ.toCryptocurrencyFamily typ.toStr
                "" none none me := by
            simp [run, hp, hw, hm, ha]
          rw [hrun]
          obtain ⟨-, -, -, g4, -⟩ :=
            runAfterLease_spec env arg typ.toCryptocurrencyFamily typ.toStr
              "" none none me _ rfl
          intro hpost
          obtain ⟨a, b, c, d⟩ := g4 p hpost
          refine ⟨a, b, ?_, d⟩
          rw [c, runAfterLease_leaseRequested]
          rfl
        | some link =>
          cases hf : arg.force with
          | false => simp [run, hp, hw, hm, ha, hf, earlyExit]
          | true =>
            cases hl : env.requestDowngradeLease with
            | error m => simp [run, hp, hw, hm, ha, hf, hl, earlyExit]
            | ok pr =>
              obtain ⟨l0, r0⟩ := pr
              have hrun : run env arg =
                  runAfterLease env arg typ.toCryptocurrencyFamily typ.toStr
                    link.sigID (some l0) (some [link.sigID]) me := by
                simp [run, hp, hw, hm, ha, hf, hl]
              rw [hrun]
              obtain ⟨-, -, -, g4, -⟩ :=
                runAfterLease_spec env arg typ.toCryptocurrencyFamily typ.toStr
                  link.sigID (some l0) (some [link.sigID]) me _ rfl
              intro hpost
              obtain ⟨a, b, c, d⟩ := g4 p hpost
              refine ⟨a, b, ?_, d⟩
              rw [c, runAfterLease_leaseRequested]
              rfl

/-- With an effective signature version other than 1 and 2, `Run` errors and
neither signs nor posts. -/
lemma run_invalid_version_blocked (h1 : effSigVersion arg.sigVersion ≠ 1)
    (h2 : effSigVersion arg.sigVersion ≠ 2) :
    (run env arg).err.isSome = true ∧ (run env arg).posted = none ∧
    (run env arg).v1SignPayload = none ∧ (run env arg).outerSigCall = none := by
  cases hp : env.parseAndCheck with
  | error m => simp [run, hp, earlyExit]
  | ok typ =>
    by_cases hw : (arg.wantedFamily.length > 0 &&
        arg.wantedFamily != typ.toCryptocurrencyFamily) = true
    · simp [run, hp, hw, earlyExit]
    · rw [Bool.not_eq_true] at hw
      cases hm : env.loadMe with
      | error m => simp [run, hp, hw, hm, earlyExit]
      | ok me =>
        cases ha : me.activeCryptocurrency typ.toCryptocurrencyFamily with
        | none =>
          have hrun : run env arg =
              runAfterLease env arg typ.toCryptocurrencyFamily typ.toStr
                "" none none me := by
            simp [run, hp, hw, hm, ha]
          rw [hrun]
          obtain ⟨-, -, -, -, -, g6, -⟩ :=
            runAfterLease_spec env arg typ.toCryptocurrencyFamily typ.toStr
              "" none none me _ rfl
          exact g6 h1 h2
        | some link =>
          cases hf : arg.force with
          | false => simp [run, hp, hw, hm, ha, hf, earlyExit]
          | true =>
            cases hl : env.requestDowngradeLease with
            | error m => simp [run, hp, hw, hm, ha, hf, hl, earlyExit]
            | ok pr =>
              obtain ⟨l0, r0⟩ := pr
              have hrun : run env arg =
                  runAfterLease env arg typ.toCryptocurrencyFamily typ.toStr
                    link.sigID (some l0) (some [link.sigID]) me := by
                simp [run, hp, hw, hm, ha, hf, hl]
              rw [hrun]
              obtain ⟨-, -, -, -, -, g6, -⟩ :=
                runAfterLease_spec env arg typ.toCryptocurrencyFamily typ.toStr
                  link.sigID (some l0) (some [link.sigID]) me _ rfl
              exact g6 h1 h2

/-- With effective version 2, `Run` never returns the invalid-version error. -/
lemma run_no_invalidSigVersion_of_v2 (h2 : effSigVersion arg.sigVersion = 2) :
    (run env arg).err ≠ some GoError.invalidSigVersion := by
  cases hp : env.parseAndCheck with
  | error m => simp [run, hp, earlyExit]
  | ok typ =>
    by_cases hw : (arg.wantedFamily.length > 0 &&
        arg.wantedFamily != typ.toCryptocurrencyFamily) = true
    · simp [run, hp, hw, earlyExit]
    · rw [Bool.not_eq_true] at hw
      cases hm : env.loadMe with
      | error m => simp [run, hp, hw, hm, earlyExit]
      | ok me =>
        cases ha : me.activeCryptocurrency typ.toCryptocurrencyFamily with
        | none =>
          have hrun : run env arg =
              runAfterLease env arg typ.toCryptocurrencyFamily typ.toStr
                "" none none me := by
            simp [run, hp, hw, hm, ha]
          rw [hrun]
          obtain ⟨-, -, -, -, -, -, -, g8⟩ :=
            runAfterLease_spec env arg typ.toCryptocurrencyFamily typ.toStr
              "" none none me _ rfl
          exact g8 h2
        | some link =>
          cases hf : arg.force with
          | false => simp [run, hp, hw, hm, ha, hf, earlyExit]
          | true =>
            cases hl : env.requestDowngradeLease with
            | error m => simp [run, hp, hw, hm, ha, hf, hl, earlyExit]
            | ok pr =>
              obtain ⟨l0, r0⟩ := pr
              have hrun : run env arg =
                  runAfterLease env arg typ.toCryptocurrencyFamily typ.toStr
                    link.sigID (some l0) (some [link.sigID]) me := by
                simp [run, hp, hw, hm, ha, hf, hl]
              rw [hrun]
              obtain ⟨-, -, -, -, -, -, -, g8⟩ :=
                runAfterLease_spec env arg typ.toCryptocurrencyFamily typ.toStr
                  link.sigID (some l0) (some [link.sigID]) me _ rfl
              exact g8 h2

/-- When every step up to the version switch succeeds (no active link, so no
lease) and the effective version is neither 1 nor 2, the switch's default
branch yields the literal invalid-version error. -/
lemma run_happy_invalid_version (typ : CryptocurrencyType) (me : Me)
    (k : SigKey) (c : Claim) (si : List Nat)
    (h1 : effSigVersion arg.sigVersion ≠ 1) (h2 : effSigVersion arg.sigVersion ≠ 2)
    (hp : env.parseAndCheck = Except.ok typ)
    (hw : (arg.wantedFamily.length > 0 &&
      arg.wantedFamily != typ.toCryptocurrencyFamily) = false)
    (hm : env.loadMe = Except.ok me)
    (ha : me.activeCryptocurrency typ.toCryptocurrencyFamily = none)
    (hk : env.getSecretKeyWithPrompt = Except.ok k)
    (hc : env.checkSecretKey = none)
    (hs : env.cryptocurrencySig = Except.ok c)
    (hmar : env.marshal = Except.ok si) :
    (run env arg).err = some GoError.invalidSigVersion := by
  have hrun : run env arg =
      runAfterLease env arg typ.toCryptocurrencyFamily typ.toStr "" none none me := by
    simp [run, hp, hw, hm, ha]
  rw [hrun]
  obtain ⟨-, -, -, -, -, -, g7, -⟩ :=
    runAfterLease_spec env arg typ.toCryptocurrencyFamily typ.toStr
      "" none none me _ rfl
  exact g7 h1 h2 k hk hc c hs si hmar

/-- A lease is requested exactly when the prefix of `Run` reaches the lease
step with an active claim: valid parse, no family mismatch, user loaded, an
active link in the derived family, and the force flag set. -/
lemma run_leaseRequested_iff :
    (run env arg).leaseRequested.isSome = true ↔
    ∃ typ me link, env.parseAndCheck = Except.ok typ ∧
      (arg.wantedFamily.length > 0 &&
        arg.wantedFamily != typ.toCryptocurrencyFamily) = false ∧
      env.loadMe = Except.ok me ∧
      me.activeCryptocurrency typ.toCryptocurrencyFamily = some link ∧
      arg.force = true := by
  cases hp : env.parseAndCheck with
  | error m => simp [run, hp, earlyExit]
  | ok typ =>
    by_cases hw : (arg.wantedFamily.length > 0 &&
        arg.wantedFamily != typ.toCryptocurrencyFamily) = true
    · have hw2 : 0 < arg.wantedFamily.length ∧
          ¬arg.wantedFamily = typ.toCryptocurrencyFamily := by
        simpa using hw
      simp [run, hp, hw, earlyExit, hw2]
    · rw [Bool.not_eq_true] at hw
      have hw2 : 0 < arg.wantedFamily.length →
          arg.wantedFamily = typ.toCryptocurrencyFamily := by
        simpa using hw
      cases hm : env.loadMe with
      | error m => simp [run, hp, hw, hm, earlyExit, hw2]
      | ok me =>
        cases ha : me.activeCryptocurrency typ.toCryptocurrencyFamily with
        | none =>
          have hrun : run env arg =
              runAfterLease env arg typ.toCryptocurrencyFamily typ.toStr
                "" none none me := by
            simp [run, hp, hw, hm, ha]
          simp [hrun, runAfterLease_leaseRequested, ha, hw2]
        | some link =>
          cases hf : arg.force with
          | false => simp [run, hp, hw, hm, ha, hf, earlyExit, hw2]
          | true =>
            cases hl : env.requestDowngradeLease with
            | error m =>
              simp [run, hp, hw, hm, ha, hf, hl, earlyExit, hw2] <;> exact hw2
            | ok pr =>
              obtain ⟨l0, r0⟩ := pr
              have hrun : run env arg =
                  runAfterLease env arg typ.toCryptocurrencyFamily typ.toStr
                    link.sigID (some l0) (some [link.sigID]) me := by
                simp [run, hp, hw, hm, ha, hf, hl]
              simp [hrun, runAfterLease_leaseRequested, ha, hw2] <;> exact hw2

/-- `Run` produces `InvalidAddressError` exactly on a parse failure or a
wanted-family mismatch. -/
lemma run_invalidAddressError_iff :
    (∃ m, (run env arg).err = some (GoError.invalidAddressError m)) ↔
    ((∃ m, env.parseAndCheck = Except.error m) ∨
      ∃ typ, env.parseAndCheck = Except.ok typ ∧
        (arg.wantedFamily.length > 0 &&
          arg.wantedFamily != typ.toCryptocurrencyFamily) = true) := by
  cases hp : env.parseAndCheck with
  | error m => simp [run, hp, earlyExit]
  | ok typ =>
    by_cases hw : (arg.wantedFamily.length > 0 &&
        arg.wantedFamily != typ.toCryptocurrencyFamily) = true
    · have hw2 : 0 < arg.wantedFamily.length ∧
          ¬arg.wantedFamily = typ.toCryptocurrencyFamily := by
        simpa using hw
      simp [run, hp, hw, earlyExit, hw2]
    · rw [Bool.not_eq_true] at hw
      have hw2 : 0 < arg.wantedFamily.length →
          arg.wantedFamily = typ.toCryptocurrencyFamily := by
        simpa using hw
      cases hm : env.loadMe with
      | error m => simp [run, hp, hw, hm, earlyExit, hw2] <;> exact hw2
      | ok me =>
        cases ha : me.activeCryptocurrency typ.toCryptocurrencyFamily with
        | none =>
          have hrun : run env arg =
              runAfterLease env arg typ.toCryptocurrencyFamily typ.toStr
                "" none none me := by
            simp [run, hp, hw, hm, ha]
          simp [hrun, runAfterLease_no_invalidAddressError, hw2] <;> exact hw2
        | some link =>
          cases hf : arg.force with
          | false =>
            simp [run, hp, hw, hm, ha, hf, earlyExit, hw2] <;> exact hw2
          | true =>
            cases hl : env.requestDowngradeLease with
            | error m =>
              simp [run, hp, hw, hm, ha, hf, hl, earlyExit, hw2] <;> exact hw2
            | ok pr =>
              obtain ⟨l0, r0⟩ := pr
              have hrun : run env arg =
                  runAfterLease env arg typ.toCryptocurrencyFamily typ.toStr
                    link.sigID (some l0) (some [link.sigID]) me := by
                simp [run, hp, hw, hm, ha, hf, hl]
              simp [hrun, runAfterLease_no_invalidAddressError, hw2] <;> exact hw2

/-- Any V2 outer-signature call made by `Run` carries the claim-registration
link type, tip sequence plus one, the tip link id, the revocation flag set
exactly when a sig ID is being revoked, the public sequence type, and the
marshalled inner payload. -/
lemma run_outer_sig (typ : CryptocurrencyType) (me : Me)
    (hp : env.parseAndCheck = Except.ok typ) (hm : env.loadMe = Except.ok me)
    (c : OuterSigArgs) (hc : (run env arg).outerSigCall = some c) :
    c.linkType = LinkType.cryptocurrency ∧
    c.seqno = me.lastKnownSeqno + 1 ∧
    c.prevLinkID = me.lastKnownID ∧
    c.hasRevokes = decide (0 <
      (((me.activeCryptocurrency typ.toCryptocurrencyFamily).map Link.sigID).getD
        "").length) ∧
    c.seqType = SeqType.public ∧
    c.ignoreIfUnsupported = false ∧
    env.marshal = Except.ok c.innerLinkJSON := by
  revert hc
  by_cases hw : (arg.wantedFamily.length > 0 &&
      arg.wantedFamily != typ.toCryptocurrencyFamily) = true
  · simp [run, hp, hw, earlyExit]
  · rw [Bool.not_eq_true] at hw
    cases ha : me.activeCryptocurrency typ.toCryptocurrencyFamily with
    | none =>
      have hrun : run env arg =
          runAfterLease env arg typ.toCryptocurrencyFamily typ.toStr
            "" none none me := by
        simp [run, hp, hw, hm, ha]
      rw [hrun]
      obtain ⟨-, -, -, -, g5, -⟩ :=
        runAfterLease_spec env arg typ.toCryptocurrencyFamily typ.toStr
          "" none none me _ rfl
      intro hc
      obtain ⟨x1, x2, x3, x4, x5, x6, x7⟩ := g5 c hc
      exact ⟨x1, x2, x3, x4, x5, x6, x7⟩
    | some link =>
      cases hf : arg.force with
      | false => simp [run, hp, hw, hm, ha, hf, earlyExit]
      | true =>
        cases hl : env.requestDowngradeLease with
        | error m => simp [run, hp, hw, hm, ha, hf, hl, earlyExit]
        | ok pr =>
          obtain ⟨l0, r0⟩ := pr
          have hrun : run env arg =
              runAfterLease env arg typ.toCryptocurrencyFamily typ.toStr
                link.sigID (some l0) (some [link.sigID]) me := by
            simp [run, hp, hw, hm, ha, hf, hl]
          rw [hrun]
          obtain ⟨-, -, -, -, g5, -⟩ :=
            runAfterLease_spec env arg typ.toCryptocurrencyFamily typ.toStr
              link.sigID (some l0) (some [link.sigID]) me _ rfl
          intro hc
          obtain ⟨x1, x2, x3, x4, x5, x6, x7⟩ := g5 c hc
          exact ⟨x1, x2, x3, x4, x5, x6, x7⟩

/-- `Run` reads the argument record only through the wanted family, the force
flag and the effective signature version. -/
lemma run_congr (a b : RegisterAddressArg)
    (hwf : a.wantedFamily = b.wantedFamily) (hf : a.force = b.force)
    (hv : effSigVersion a.sigVersion = effSigVersion b.sigVersion) :
    run env a = run env b := by
  have hal : ∀ fam ts s lease lr me,
      runAfterLease env a fam ts s lease lr me =
        runAfterLease env b fam ts s lease lr me :=
    fun fam ts s lease lr me => runAfterLease_congr env a b hv fam ts s lease lr me
  unfold run
  cases hp : env.parseAndCheck with
  | error m => rfl
  | ok typ =>
    rw [hwf, hf]
    simp only [hal]

end RunLemmas

/-- A sample argument record requesting replacement (force set, version unset). -/
def argForce : RegisterAddressArg :=
  { address := "1abc", wantedFamily := "", force := true, sigVersion := 0 }

/-- A sample argument record with an unsupported signature version. -/
def argV7 : RegisterAddressArg :=
  { address := "1abc", wantedFamily := "", force := false, sigVersion := 7 }

/-- C1: if an active claim already exists in the target family and the force
flag is not set, `Run` fails with `ClaimAlreadyExists` (`ExistsError` naming
the family), and no lease request, no signing call and no chain-store post
occurs on that path. -/
theorem c1_claim_already_exists_blocks_all_effects (env : Env)
    (arg : RegisterAddressArg) (typ : CryptocurrencyType) (me : Me) (link : Link)
    (hp : env.parseAndCheck = Except.ok typ)
    (hw : (arg.wantedFamily.length > 0 &&
      arg.wantedFamily != typ.toCryptocurrencyFamily) = false)
    (hm : env.loadMe = Except.ok me)
    (ha : me.activeCryptocurrency typ.toCryptocurrencyFamily = some link)
    (hf : arg.force = false) :
    (run env arg).err = some (GoError.existsError typ.toCryptocurrencyFamily) ∧
    (run env arg).leaseRequested = none ∧ (run env arg).v1SignPayload = none ∧
    (run env arg).outerSigCall = none ∧ (run env arg).posted = none :=
  run_exists_error env arg typ me link hp hw hm ha hf

/-- Witness for C1 at a concrete environment with an active "bitcoin" claim
and `force = false`. -/
theorem c1_witness :
    (run envActive argBase).err = some (GoError.existsError "bitcoin") ∧
    (run envActive argBase).leaseRequested = none ∧
    (run envActive argBase).v1SignPayload = none ∧
    (run envActive argBase).outerSigCall = none ∧
    (run envActive argBase).posted = none :=
  c1_claim_already_exists_blocks_all_effects envActive argBase typBtc meActive
    { sigID := "sigOld" } rfl (by decide) rfl rfl rfl

/-- C2: any V2 outer signature is produced over an envelope with link type
claim-registration, sequence = tip sequence + 1, previous-link hash = tip link
id, has-revocation exactly when a sig ID is being revoked, sequence-type
public, bound to the serialized inner payload. -/
theorem c2_v2_outer_signature_envelope (env : Env) (arg : RegisterAddressArg)
    (typ : CryptocurrencyType) (me : Me)
    (hp : env.parseAndCheck = Except.ok typ) (hm : env.loadMe = Except.ok me)
    (c : OuterSigArgs) (hc : (run env arg).outerSigCall = some c) :
    c.linkType = LinkType.cryptocurrency ∧
    c.seqno = me.lastKnownSeqno + 1 ∧
    c.prevLinkID = me.lastKnownID ∧
    c.hasRevokes = decide (0 <
      (((me.activeCryptocurrency typ.toCryptocurrencyFamily).map Link.sigID).getD
        "").length) ∧
    c.seqType = SeqType.public ∧
    c.ignoreIfUnsupported = false ∧
    env.marshal = Except.ok c.innerLinkJSON :=
  run_outer_sig env arg typ me hp hm c hc

/-- Witness for C2: a replacement run over a tip at sequence 4 produces the
outer-signature call with sequence 5, previous link "prevID" and the
revocation flag set. -/
theorem c2_witness :
    (run envActive argForce).outerSigCall =
      some { linkType := LinkType.cryptocurrency
             seqno := 5
             innerLinkJSON := [1, 2, 3]
             prevLinkID := "prevID"
             hasRevokes := true
             seqType := SeqType.public
             ignoreIfUnsupported := false } ∧
    (5 = meActive.lastKnownSeqno + 1 ∧
      envActive.marshal = Except.ok [1, 2, 3]) := by
  have h := c2_v2_outer_signature_envelope envActive argForce typBtc meActive
    rfl rfl
    { linkType := LinkType.cryptocurrency
      seqno := 5
      innerLinkJSON := [1, 2, 3]
      prevLinkID := "prevID"
      hasRevokes := true
      seqType := SeqType.public
      ignoreIfUnsupported := false }
    (by decide)
  exact ⟨by decide, h.2.1, h.2.2.2.2.2.2⟩

/-- C3: a revocation lease is requested if and only if `Run` reaches the lease
step with an active claim in the target family — which requires a valid parse,
no family mismatch, a loaded user, an active link, and the force flag set; in
particular with no active claim no lease is ever requested. -/
theorem c3_lease_requested_iff (env : Env) (arg : RegisterAddressArg) :
    (run env arg).leaseRequested.isSome = true ↔
    ∃ typ me link, env.parseAndCheck = Except.ok typ ∧
      (arg.wantedFamily.length > 0 &&
        arg.wantedFamily != typ.toCryptocurrencyFamily) = false ∧
      env.loadMe = Except.ok me ∧
      me.activeCryptocurrency typ.toCryptocurrencyFamily = some link ∧
      arg.force = true :=
  run_leaseRequested_iff env arg

/-- Witness for C3: with an active claim and force set a lease is requested. -/
theorem c3_witness : (run envActive argForce).leaseRequested.isSome = true :=
  (c3_lease_requested_iff envActive argForce).mpr
    ⟨typBtc, meActive, { sigID := "sigOld" }, rfl, by decide, rfl, rfl, rfl⟩

/-- C4: every posted submission has `is_remote_proof = false` and
`type = "cryptocurrency"` (with `sig` and `signing_kid` structurally always
present), carries `downgrade_lease_id` exactly when a lease was obtained, and
carries `sig_inner` exactly when the effective signature version is 2. -/
theorem c4_post_fields (env : Env) (arg : RegisterAddressArg) (p : PostArgs)
    (hp' : (run env arg).posted = some p) :
    p.is_remote_proof = false ∧ p.type = "cryptocurrency" ∧
    p.downgrade_lease_id.isSome = (run env arg).leaseRequested.isSome ∧
    p.sig_inner.isSome = (effSigVersion arg.sigVersion == 2) :=
  run_posted_shape env arg p hp'

/-- Witness for C4 at a concrete replacement run: the posted map carries the
lease id and the inner payload. -/
theorem c4_witness :
    ({ sig := "sigV2"
       signing_kid := "kid1"
       is_remote_proof := false
       type := "cryptocurrency"
       downgrade_lease_id := some "lease1"
       sig_inner := some [1, 2, 3] } : PostArgs).is_remote_proof = false ∧
    ({ sig := "sigV2"
       signing_kid := "kid1"
       is_remote_proof := false
       type := "cryptocurrency"
       downgrade_lease_id := some "lease1"
       sig_inner := some [1, 2, 3] } : PostArgs).type = "cryptocurrency" ∧
    (some "lease1" : Option String).isSome =
      (run envActive argForce).leaseRequested.isSome ∧
    (some [1, 2, 3] : Option (List Nat)).isSome =
      (effSigVersion argForce.sigVersion == 2) :=
  c4_post_fields envActive argForce
    { sig := "sigV2"
      signing_kid := "kid1"
      is_remote_proof := false
      type := "cryptocurrency"
      downgrade_lease_id := some "lease1"
      sig_inner := some [1, 2, 3] }
    (by decide)

/-- C5: if the lease service rejects the request, `Run` returns that error
value unmodified, exactly one lease request was made, and no submission is
sent to the chain store. -/
theorem c5_lease_error_surfaced_unmodified (env : Env) (arg : RegisterAddressArg)
    (typ : CryptocurrencyType) (me : Me) (link : Link) (m : String)
    (hp : env.parseAndCheck = Except.ok typ)
    (hw : (arg.wantedFamily.length > 0 &&
      arg.wantedFamily != typ.toCryptocurrencyFamily) = false)
    (hm : env.loadMe = Except.ok me)
    (ha : me.activeCryptocurrency typ.toCryptocurrencyFamily = some link)
    (hf : arg.force = true)
    (hl : env.requestDowngradeLease = Except.error m) :
    (run env arg).err = some (GoError.external m) ∧
    (run env arg).leaseRequested = some [link.sigID] ∧
    (run env arg).v1SignPayload = none ∧ (run env arg).outerSigCall = none ∧
    (run env arg).posted = none :=
  run_lease_error env arg typ me link m hp hw hm ha hf hl

/-- Witness for C5 at a concrete environment whose lease service rejects. -/
theorem c5_witness :
    (run envLeaseFail argForce).err =
      some (GoError.external "lease unavailable") ∧
    (run envLeaseFail argForce).leaseRequested = some ["sigOld"] ∧
    (run envLeaseFail argForce).v1SignPayload = none ∧
    (run envLeaseFail argForce).outerSigCall = none ∧
    (run envLeaseFail argForce).posted = none :=
  c5_lease_error_surfaced_unmodified envLeaseFail argForce typBtc meActive
    { sigID := "sigOld" } "lease unavailable" rfl (by decide) rfl rfl rfl rfl

/-- C6: a zero (unset) signature version behaves exactly as Version 2: the
whole run is equal to the same run with version 2, the invalid-version error
cannot occur, and any posted submission carries `sig_inner`. -/
theorem c6_version_zero_defaults_to_v2 (env : Env) (arg : RegisterAddressArg)
    (h0 : arg.sigVersion = 0) :
    run env arg = run env { arg with sigVersion := 2 } ∧
    (run env arg).err ≠ some GoError.invalidSigVersion ∧
    ∀ p, (run env arg).posted = some p → p.sig_inner.isSome = true := by
  have h2 : effSigVersion arg.sigVersion = 2 := by
    simp [effSigVersion, h0]
  refine ⟨?_, run_no_invalidSigVersion_of_v2 env arg h2, ?_⟩
  · exact run_congr env arg { arg with sigVersion := 2 } rfl rfl
      (by simp [effSigVersion, h0])
  · intro p hp'
    have h := (run_posted_shape env arg p hp').2.2.2
    rw [h, h2]
    rfl

/-- Witness for C6 at a concrete all-success environment with version unset. -/
theorem c6_witness :
    run envBase argBase = run envBase { argBase with sigVersion := 2 } ∧
    (run envBase argBase).err ≠ some GoError.invalidSigVersion ∧
    ∀ p, (run envBase argBase).posted = some p → p.sig_inner.isSome = true :=
  c6_version_zero_defaults_to_v2 envBase argBase rfl

/-- C7: `Run` fails with `InvalidClaim` (`InvalidAddressError`) exactly when
the address fails to parse or a non-empty wanted-family hint disagrees with
the derived family; on a parse failure the parse error message is used
(parse is checked first), and in both cases no lease request, no signing and
no post occurs. -/
theorem c7_invalid_claim_iff (env : Env) (arg : RegisterAddressArg) :
    ((∃ m, (run env arg).err = some (GoError.invalidAddressError m)) ↔
      ((∃ m, env.parseAndCheck = Except.error m) ∨
        ∃ typ, env.parseAndCheck = Except.ok typ ∧
          (arg.wantedFamily.length > 0 &&
            arg.wantedFamily != typ.toCryptocurrencyFamily) = true)) ∧
    (∀ m, env.parseAndCheck = Except.error m →
      (run env arg).err = some (GoError.invalidAddressError m) ∧
      (run env arg).leaseRequested = none ∧ (run env arg).v1SignPayload = none ∧
      (run env arg).outerSigCall = none ∧ (run env arg).posted = none) ∧
    (∀ typ, env.parseAndCheck = Except.ok typ →
      (arg.wantedFamily.length > 0 &&
        arg.wantedFamily != typ.toCryptocurrencyFamily) = true →
      (run env arg).leaseRequested = none ∧ (run env arg).v1SignPayload = none ∧
      (run env arg).outerSigCall = none ∧ (run env arg).posted = none) :=
  ⟨run_invalidAddressError_iff env arg,
   fun m hm => run_parse_error env arg m hm,
   fun typ hp hw => (run_mismatch env arg typ hp hw).2⟩

/-- Witness for C7 at a concrete environment whose parse fails. -/
theorem c7_witness :
    (run envParseFail argBase).err =
      some (GoError.invalidAddressError "bad address") ∧
    (run envParseFail argBase).leaseRequested = none ∧
    (run envParseFail argBase).v1SignPayload = none ∧
    (run envParseFail argBase).outerSigCall = none ∧
    (run envParseFail argBase).posted = none :=
  (c7_invalid_claim_iff envParseFail argBase).2.1 "bad address" rfl

/-- C8: the per-identity mutation guard is acquired at the start of `Run` and
released on every exit path, success and failure alike. -/
theorem c8_guard_always_released (env : Env) (arg : RegisterAddressArg) :
    (run env arg).guardSet = true ∧ (run env arg).guardCleared = true :=
  run_guard env arg

/-- C9: for every signature version other than 0, 1 and 2, `Run` returns an
error and posts nothing; when all steps before the version switch succeed the
error is the literal invalid-version error. -/
theorem c9_invalid_version_errors_no_post (env : Env) (arg : RegisterAddressArg)
    (h0 : arg.sigVersion ≠ 0) (h1 : arg.sigVersion ≠ 1) (h2 : arg.sigVersion ≠ 2) :
    (run env arg).err.isSome = true ∧ (run env arg).posted = none ∧
    (run env arg).v1SignPayload = none ∧ (run env arg).outerSigCall = none ∧
    (∀ typ me k c si, env.parseAndCheck = Except.ok typ →
      (arg.wantedFamily.length > 0 &&
        arg.wantedFamily != typ.toCryptocurrencyFamily) = false →
      env.loadMe = Except.ok me →
      me.activeCryptocurrency typ.toCryptocurrencyFamily = none →
      env.getSecretKeyWithPrompt = Except.ok k → env.checkSecretKey = none →
      env.cryptocurrencySig = Except.ok c → env.marshal = Except.ok si →
      (run env arg).err = some GoError.invalidSigVersion) := by
  have he : effSigVersion arg.sigVersion = arg.sigVersion := by
    simp [effSigVersion, h0]
  have he1 : effSigVersion arg.sigVersion ≠ 1 := by rw [he]; exact h1
  have he2 : effSigVersion arg.sigVersion ≠ 2 := by rw [he]; exact h2
  obtain ⟨a, b, c, d⟩ := run_invalid_version_blocked env arg he1 he2
  exact ⟨a, b, c, d, fun typ me k cl si hp hw hm ha hk hc hs hmar =>
    run_happy_invalid_version env arg typ me k cl si he1 he2 hp hw hm ha hk hc hs hmar⟩

/-- Witness for C9 at a concrete all-success environment with version 7. -/
theorem c9_witness :
    (run envBase argV7).err = some GoError.invalidSigVersion ∧
    (run envBase argV7).posted = none := by
  have h := c9_invalid_version_errors_no_post envBase argV7
    (by decide) (by decide) (by decide)
  exact ⟨h.2.2.2.2 typBtc meNone { kid := "kid1" } { tag := 0 } [1, 2, 3]
    rfl (by decide) rfl rfl rfl rfl rfl rfl, h.2.1⟩

/-- C10: whenever `Run` returns an error, `Result` returns the zero-valued
`RegisterAddressRes`: the result fields are assigned only after the post has
succeeded. -/
theorem c10_result_zero_on_error (env : Env) (arg : RegisterAddressArg)
    (h : (run env arg).err.isSome = true) :
    Result (run env arg) = RegisterAddressRes.zero :=
  run_res_zero env arg h

/-- Witness for C10 at a concrete failing run. -/
theorem c10_witness : Result (run envParseFail argBase) = RegisterAddressRes.zero :=
  c10_result_zero_on_error envParseFail argBase (by decide)

end Crypto
